import Mathlib

/-!
Verification of the cf-hackathon conversational-agent runtime.

The tool registry, the agent-side tool execute bodies and the MCP expense
server are embedded from the source (`src/apps/agent/src/tools.ts` and the
Hono/drizzle worker).  The Confirmation Gate state machine and the Scheduler
store are not present under `src/` (only their callers are), so those are
modelled from the spec, as marked in the doc comments below.
-/

/-- Execution mode of a tool: AUTO runs without human gating, CONFIRM awaits a
human decision before its bound execution function may run. -/
inductive Mode
  | AUTO
  | CONFIRM
deriving DecidableEq, Repr

/-- A registered tool, as it appears in `tools.ts`: a name and whether the
`tool({...})` literal supplies an `execute` function.  Per the source comment,
omitting the execute function makes the tool require human confirmation. -/
structure ToolDef where
  name : String
  hasExecute : Bool
deriving DecidableEq, Repr

/-- The exported `tools` object of `src/apps/agent/src/tools.ts`, in export
order.  The Boolean records whether the `tool({...})` literal has an `execute`
field in the source. -/
def toolsRegistry : List ToolDef :=
  [⟨"setMemory", true⟩,
   ⟨"forgetMemory", true⟩,
   ⟨"addMcpServer", true⟩,
   ⟨"removeMcpServer", true⟩,
   ⟨"listMcpServers", true⟩,
   ⟨"getWeatherInformation", false⟩,
   ⟨"getLocalTime", true⟩,
   ⟨"scheduleTask", true⟩,
   ⟨"getScheduledTasks", true⟩,
   ⟨"cancelScheduledTask", true⟩,
   ⟨"createInvoice", false⟩,
   ⟨"listInvoices", true⟩,
   ⟨"addExpense", true⟩,
   ⟨"getExpenses", true⟩,
   ⟨"updateExpense", true⟩,
   ⟨"deleteExpense", true⟩]

/-- Keys of the exported `executions` object in `tools.ts`: the bound execution
functions for the confirmation-required tools. -/
def executionsKeys : List String :=
  ["getWeatherInformation", "createInvoice"]

/-- Duck-typed mode derivation from the source: a tool with an `execute`
function is AUTO, one without is CONFIRM. -/
def toolMode (t : ToolDef) : Mode :=
  if t.hasExecute then Mode.AUTO else Mode.CONFIRM

/-- Confirmation Gate status of one tool call. -/
inductive Status
  | PENDING_AUTO
  | PENDING_CONFIRM
  | APPROVED
  | REJECTED
  | COMPLETED
  | FAILED
deriving DecidableEq, Repr

/-- Human decision carried to the gate. -/
inductive Decision
  | APPROVE
  | REJECT
deriving DecidableEq, Repr

/-- The two-valued APPROVAL token the UI sends through `addToolResult`
(`APPROVAL.YES` / `APPROVAL.NO` in `ToolInvocationCard`). -/
inductive Approval
  | YES
  | NO
deriving DecidableEq, Repr

/-- Decoding of the APPROVAL token into a gate decision. -/
def Approval.toDecision : Approval → Decision
  | Approval.YES => Decision.APPROVE
  | Approval.NO => Decision.REJECT

/-- Modelled from the spec: initial Confirmation Gate state of a tool call is
PENDING_AUTO when the resolved tool's mode is AUTO, else PENDING_CONFIRM.
(The gate implementation itself is not under `src/`.) -/
def initialStatus (t : ToolDef) : Status :=
  if toolMode t = Mode.AUTO then Status.PENDING_AUTO else Status.PENDING_CONFIRM

/-- Result of a bound execution function: a returned string, or a thrown
error. -/
abbrev ExecResult := Except String String

/-- Per-call gate record: status, recorded result, and how many times the
bound execution function has been invoked for this callId. -/
structure CallState where
  status : Status
  result : Option String
  execCount : Nat
deriving DecidableEq, Repr

/-- Terminal gate states. -/
def isTerminal : Status → Bool
  | Status.REJECTED => true
  | Status.COMPLETED => true
  | Status.FAILED => true
  | _ => false

/-- Modelled from the spec: the deterministic rejection marker recorded when a
human declines a CONFIRM call. -/
def rejectedMarker : String := "rejected"

/-- Fresh gate record for a dispatched call. -/
def initialCallState (t : ToolDef) : CallState :=
  { status := initialStatus t, result := none, execCount := 0 }

/-- Modelled from the spec: attempting execution of a call.  A returned value
transitions the call to COMPLETED; a thrown error is captured and transitions
the call to FAILED with the error detail attached, never propagated. -/
def runExec (exec : ExecResult) (s : CallState) : CallState :=
  match exec with
  | Except.ok v =>
      { status := Status.COMPLETED, result := some v, execCount := s.execCount + 1 }
  | Except.error e =>
      { status := Status.FAILED, result := some ("Error: " ++ e),
        execCount := s.execCount + 1 }

/-- Modelled from the spec: `resolve(callId, decision)`.  On a terminal call it
is a no-op returning the recorded outcome; REJECT transitions directly to
REJECTED without executing; APPROVE attempts execution. -/
def resolveCall (exec : ExecResult) (d : Decision) (s : CallState) : CallState :=
  if isTerminal s.status then s
  else
    match d with
    | Decision.REJECT =>
        { status := Status.REJECTED, result := some rejectedMarker,
          execCount := s.execCount }
    | Decision.APPROVE => runExec exec s

/-- Modelled from the spec: an AUTO call is immediately approved by the gate
and handed to execution, with no external decision consumed. -/
def autoDispatch (exec : ExecResult) (t : ToolDef) : CallState :=
  if initialStatus t = Status.PENDING_AUTO then runExec exec (initialCallState t)
  else initialCallState t

/-- Per-tool statement of claim C1: pending-confirm initial state coincides
with CONFIRM mode, CONFIRM mode holds exactly for the two named tools, and
exactly the CONFIRM tools have bound execution functions in `executions`. -/
abbrev C1ToolProp (t : ToolDef) : Prop :=
  (initialStatus t = Status.PENDING_CONFIRM ↔ toolMode t = Mode.CONFIRM) ∧
  (toolMode t = Mode.CONFIRM ↔
    (t.name = "getWeatherInformation" ∨ t.name = "createInvoice")) ∧
  (toolMode t = Mode.CONFIRM ↔ t.name ∈ executionsKeys)

/-- C1: for every tool-call request the initial gate state is PENDING_CONFIRM
exactly when the resolved tool's mode is CONFIRM; in this registry exactly
getWeatherInformation and createInvoice are CONFIRM (they are exactly the keys
of `executions`), and every other exported tool is AUTO and executes from the
gate without any human decision. -/
theorem c1_confirm_gate_initial_state :
    (∀ t ∈ toolsRegistry, C1ToolProp t) ∧
    (∀ (exec : ExecResult) (t : ToolDef), toolMode t = Mode.AUTO →
        autoDispatch exec t = runExec exec (initialCallState t)) := by
  constructor
  · decide
  · intro exec t h
    simp [autoDispatch, initialStatus, h]

/-- Witness for C1 at concrete registry entries. -/
theorem c1_confirm_gate_initial_state_witness :
    C1ToolProp ⟨"getWeatherInformation", false⟩ ∧
    autoDispatch (Except.ok "10am") ⟨"getLocalTime", true⟩ =
      runExec (Except.ok "10am") (initialCallState ⟨"getLocalTime", true⟩) :=
  ⟨c1_confirm_gate_initial_state.1 ⟨"getWeatherInformation", false⟩ (by decide),
   c1_confirm_gate_initial_state.2 (Except.ok "10am") ⟨"getLocalTime", true⟩ (by decide)⟩

/-- C2: resolving a CONFIRM-mode call with the REJECT decision (the
APPROVAL.NO token) transitions it directly to terminal REJECTED, never invokes
the bound execution function, records the deterministic rejection marker, and
any later resolution of the same callId is a no-op. -/
theorem c2_reject_never_executes (t : ToolDef) (exec : ExecResult)
    (h : toolMode t = Mode.CONFIRM) :
    resolveCall exec (Approval.toDecision Approval.NO) (initialCallState t) =
      { status := Status.REJECTED, result := some rejectedMarker, execCount := 0 } ∧
    (resolveCall exec (Approval.toDecision Approval.NO) (initialCallState t)).execCount
      = 0 ∧
    (∀ (exec2 : ExecResult) (d : Decision),
      resolveCall exec2 d
          (resolveCall exec (Approval.toDecision Approval.NO) (initialCallState t)) =
        resolveCall exec (Approval.toDecision Approval.NO) (initialCallState t)) := by
  have hs : initialStatus t = Status.PENDING_CONFIRM := by
    simp [initialStatus, h]
  refine ⟨?_, ?_, ?_⟩ <;>
    simp [resolveCall, initialCallState, hs, Approval.toDecision, isTerminal]

/-- Witness for C2 on the getWeatherInformation call. -/
theorem c2_reject_never_executes_witness :
    resolveCall (Except.ok "The weather in London is sunny")
        (Approval.toDecision Approval.NO)
        (initialCallState ⟨"getWeatherInformation", false⟩) =
      { status := Status.REJECTED, result := some rejectedMarker, execCount := 0 } :=
  (c2_reject_never_executes ⟨"getWeatherInformation", false⟩
    (Except.ok "The weather in London is sunny") (by decide)).1

/-- C3: resolving a callId with APPROVE from a non-terminal state executes the
bound function exactly once in total, and a second resolve on the now-terminal
call is a no-op returning the first recorded outcome unchanged. -/
theorem c3_resolve_approve_idempotent (exec : ExecResult) (s : CallState)
    (hp : isTerminal s.status = false) (h0 : s.execCount = 0) :
    (resolveCall exec Decision.APPROVE s).execCount = 1 ∧
    resolveCall exec Decision.APPROVE (resolveCall exec Decision.APPROVE s) =
      resolveCall exec Decision.APPROVE s := by
  have h1 : resolveCall exec Decision.APPROVE s = runExec exec s := by
    simp [resolveCall, hp]
  rw [h1]
  cases exec <;>
    exact ⟨by simp [runExec, h0], by simp [resolveCall, runExec, isTerminal]⟩

/-- Witness for C3 on a fresh CONFIRM call with a concrete execution. -/
theorem c3_resolve_approve_idempotent_witness :
    (resolveCall (Except.ok "sunny") Decision.APPROVE
        (initialCallState ⟨"getWeatherInformation", false⟩)).execCount = 1 ∧
    resolveCall (Except.ok "sunny") Decision.APPROVE
        (resolveCall (Except.ok "sunny") Decision.APPROVE
          (initialCallState ⟨"getWeatherInformation", false⟩)) =
      resolveCall (Except.ok "sunny") Decision.APPROVE
        (initialCallState ⟨"getWeatherInformation", false⟩) :=
  c3_resolve_approve_idempotent (Except.ok "sunny")
    (initialCallState ⟨"getWeatherInformation", false⟩) (by decide) (by decide)

/-- The discriminated `when` union of `unstable_scheduleSchema`, as consumed by
`scheduleTask` in `tools.ts`, plus a constructor for a value whose type tag is
none of the recognized schedule kinds (the fall-through arm of the source's
nested conditional). -/
inductive ScheduleWhen
  | noSchedule
  | scheduled (date : String)
  | delayed (delayInSeconds : Int)
  | cron (cronExpr : String)
  | unrecognized (ty : String)
deriving DecidableEq, Repr

/-- The `input` value `scheduleTask` passes to `agent.schedule`: a date string,
a delay in seconds, or a cron expression. -/
inductive SchedInput
  | date (d : String)
  | delay (n : Int)
  | cron (c : String)
deriving DecidableEq, Repr

/-- The `execute` body of `scheduleTask` in `tools.ts`, parameterized by the
underlying `agent.schedule` call (which receives the input and the task
description).  `when.type === "no-schedule"` returns early; the three
recognized kinds call the scheduler inside a try/catch that turns a thrown
scheduling error into an ordinary returned message; any other type tag hits
`throwError`, whose exception escapes the execute body itself. -/
def scheduleTaskExecute (sched : SchedInput → String → Except String Unit)
    (when : ScheduleWhen) (description : String) : ExecResult :=
  match when with
  | ScheduleWhen.noSchedule => Except.ok "Not a valid schedule input"
  | ScheduleWhen.scheduled d =>
      match sched (SchedInput.date d) description with
      | Except.ok _ => Except.ok ("Task scheduled for type \"scheduled\" : " ++ d)
      | Except.error e => Except.ok ("Error scheduling task: " ++ e)
  | ScheduleWhen.delayed n =>
      match sched (SchedInput.delay n) description with
      | Except.ok _ => Except.ok ("Task scheduled for type \"delayed\" : " ++ toString n)
      | Except.error e => Except.ok ("Error scheduling task: " ++ e)
  | ScheduleWhen.cron c =>
      match sched (SchedInput.cron c) description with
      | Except.ok _ => Except.ok ("Task scheduled for type \"cron\" : " ++ c)
      | Except.error e => Except.ok ("Error scheduling task: " ++ e)
  | ScheduleWhen.unrecognized _ => Except.error "not a valid schedule input"

/-- The `execute` body of `addExpense` in `tools.ts`, parameterized by the
outcome of the outbound HTTP call: every error is caught and returned as an
ordinary message, so this execute body never throws. -/
def addExpenseExecute (fetchOutcome : Except String String) : ExecResult :=
  match fetchOutcome with
  | Except.ok data => Except.ok ("Expense added successfully: " ++ data)
  | Except.error e => Except.ok ("Error adding expense: " ++ e)

/-- C4: a thrown execution error is captured and recorded as the call's FAILED
result and never escapes the dispatch — execution always lands in COMPLETED or
FAILED — including for scheduleTask invoked with a `when` value whose type is
none of the recognized schedule kinds, whose execute body throws. -/
theorem c4_execution_errors_captured :
    (∀ (exec : ExecResult) (s : CallState) (e : String),
        exec = Except.error e →
        (runExec exec s).status = Status.FAILED ∧
        (runExec exec s).result = some ("Error: " ++ e)) ∧
    (∀ (exec : ExecResult) (s : CallState),
        (runExec exec s).status = Status.COMPLETED ∨
        (runExec exec s).status = Status.FAILED) ∧
    (∀ (sched : SchedInput → String → Except String Unit) (ty description : String),
        scheduleTaskExecute sched (ScheduleWhen.unrecognized ty) description =
          Except.error "not a valid schedule input" ∧
        (runExec (scheduleTaskExecute sched (ScheduleWhen.unrecognized ty) description)
            (initialCallState ⟨"scheduleTask", true⟩)).status = Status.FAILED) ∧
    (∀ (e : String),
        addExpenseExecute (Except.error e) =
          Except.ok ("Error adding expense: " ++ e)) := by
  refine ⟨?_, ?_, ?_, ?_⟩
  · intro exec s e he
    subst he
    exact ⟨rfl, rfl⟩
  · intro exec s
    cases exec
    · exact Or.inr rfl
    · exact Or.inl rfl
  · intro sched ty description
    exact ⟨rfl, rfl⟩
  · intro e
    rfl

/-- Witness for C4 at a concrete thrown error. -/
theorem c4_execution_errors_captured_witness :
    (runExec (Except.error "boom")
        (initialCallState ⟨"scheduleTask", true⟩)).status = Status.FAILED :=
  (c4_execution_errors_captured.1 (Except.error "boom")
    (initialCallState ⟨"scheduleTask", true⟩) "boom" rfl).1

/-- Fire spec of a schedule entry: absolute timestamp, relative delay, or cron
expression.  Modelled from the spec (the Scheduler store is not under
`src/`). -/
inductive FireSpec
  | absolute (ts : Int)
  | delayed (secs : Int)
  | cron (expr : String)
deriving DecidableEq, Repr

/-- Whether a fire spec is a recurring cron spec. -/
def FireSpec.isCron : FireSpec → Bool
  | FireSpec.cron _ => true
  | _ => false

/-- Scheduler errors, modelled from the spec's error taxonomy. -/
inductive SchedError
  | invalidSchedule
  | notFound
deriving DecidableEq, Repr

/-- Rendering of a scheduler error as it appears interpolated into a tool
result message. -/
def SchedError.render : SchedError → String
  | SchedError.invalidSchedule => "InvalidScheduleError"
  | SchedError.notFound => "NotFoundError"

/-- A persisted schedule entry, modelled from the spec. -/
structure ScheduleEntry where
  scheduleId : String
  spec : FireSpec
  payload : String
  nextFireAt : Int
  active : Bool
deriving DecidableEq, Repr

/-- Durable scheduler store, modelled from the spec. -/
structure SchedulerState where
  entries : List ScheduleEntry
  nextId : Nat
deriving DecidableEq, Repr

/-- Modelled from the spec: a fire spec is malformed for its kind when the
cron expression is unparseable (per the supplied validity predicate) or the
delay is negative; a past absolute timestamp is not an error — it fires on the
next tick. -/
def malformedFireSpec (cronValid : String → Bool) : FireSpec → Bool
  | FireSpec.absolute _ => false
  | FireSpec.delayed n => decide (n < 0)
  | FireSpec.cron c => !cronValid c

/-- Next fire time of a fire spec, given the current time and a cron
next-occurrence function. -/
def nextFireTime (cronNext : String → Int → Int) (now : Int) : FireSpec → Int
  | FireSpec.absolute ts => ts
  | FireSpec.delayed n => now + n
  | FireSpec.cron c => cronNext c now

/-- Modelled from the spec: `schedule(kind, fireSpec, payload)` fails with
InvalidScheduleError on a malformed fire spec, persisting nothing; otherwise it
appends an active entry with a fresh scheduleId and computed nextFireAt. -/
def schedule (cronValid : String → Bool) (cronNext : String → Int → Int)
    (now : Int) (st : SchedulerState) (spec : FireSpec) (payload : String) :
    Except SchedError String × SchedulerState :=
  if malformedFireSpec cronValid spec then
    (Except.error SchedError.invalidSchedule, st)
  else
    let sid := "schedule_" ++ toString st.nextId
    (Except.ok sid,
     { entries := st.entries ++
         [{ scheduleId := sid, spec := spec, payload := payload,
            nextFireAt := nextFireTime cronNext now spec, active := true }],
       nextId := st.nextId + 1 })

/-- Modelled from the spec: `cancel(scheduleId)` deactivates a currently
active entry and fails with NotFoundError when the id is unknown or the entry
already inactive, changing nothing in that case. -/
def cancel (st : SchedulerState) (sid : String) :
    Except SchedError Unit × SchedulerState :=
  if st.entries.any (fun e => decide (e.scheduleId = sid) && e.active) then
    (Except.ok (),
     { st with entries := st.entries.map (fun e =>
         if e.scheduleId = sid then { e with active := false } else e) })
  else (Except.error SchedError.notFound, st)

/-- Modelled from the spec: how one Scheduler tick treats a single entry — a
due active cron entry gets its nextFireAt recomputed, a due active
non-recurring entry is deactivated after its single fire, everything else is
left alone. -/
def tickEntry (cronNext : String → Int → Int) (now : Int)
    (e : ScheduleEntry) : ScheduleEntry :=
  if e.active && decide (e.nextFireAt ≤ now) then
    if e.spec.isCron then
      { e with nextFireAt := nextFireTime cronNext now e.spec }
    else { e with active := false }
  else e

/-- Modelled from the spec: one Scheduler tick fires due active entries,
each processed independently. -/
def fireTick (cronNext : String → Int → Int) (now : Int)
    (st : SchedulerState) : SchedulerState :=
  { st with entries := st.entries.map (tickEntry cronNext now) }

/-- The `execute` body of `cancelScheduledTask` in `tools.ts`: the underlying
cancel call runs inside a try/catch whose catch arm reports the error in the
returned message instead of the success message. -/
def cancelScheduledTaskExecute (st : SchedulerState) (taskId : String) :
    String × SchedulerState :=
  match cancel st taskId with
  | (Except.ok _, st2) =>
      ("Task " ++ taskId ++ " has been successfully canceled.", st2)
  | (Except.error e, st2) =>
      ("Error canceling task " ++ taskId ++ ": " ++ e.render, st2)

/-- C5: a malformed fire spec makes schedule() fail with InvalidScheduleError
persisting no entry; scheduleTask with a no-schedule `when` answers the
invalid-input message without consulting the scheduler at all; and a thrown
scheduling error surfaces as an error-result message. -/
theorem c5_invalid_schedule_rejected (cronValid : String → Bool)
    (cronNext : String → Int → Int) (now : Int) (st : SchedulerState)
    (spec : FireSpec) (payload : String)
    (h : malformedFireSpec cronValid spec = true) :
    schedule cronValid cronNext now st spec payload =
      (Except.error SchedError.invalidSchedule, st) ∧
    (∀ (sched1 sched2 : SchedInput → String → Except String Unit)
        (description : String),
      scheduleTaskExecute sched1 ScheduleWhen.noSchedule description =
        scheduleTaskExecute sched2 ScheduleWhen.noSchedule description) ∧
    (∀ (sched : SchedInput → String → Except String Unit) (description : String),
      scheduleTaskExecute sched ScheduleWhen.noSchedule description =
        Except.ok "Not a valid schedule input") ∧
    (∀ (sched : SchedInput → String → Except String Unit)
        (d description e : String),
      sched (SchedInput.date d) description = Except.error e →
      scheduleTaskExecute sched (ScheduleWhen.scheduled d) description =
        Except.ok ("Error scheduling task: " ++ e)) := by
  refine ⟨?_, ?_, ?_, ?_⟩
  · simp [schedule, h]
  · intro sched1 sched2 description
    rfl
  · intro sched description
    rfl
  · intro sched d description e he
    simp [scheduleTaskExecute, he]

/-- Concrete cron-validity predicate for witnesses: accept every expression. -/
def cronValidAll : String → Bool := fun _ => true

/-- Concrete cron next-occurrence function for witnesses: one minute later. -/
def cronNextMinute : String → Int → Int := fun _ now => now + 60

/-- Witness for C5: a negative delay is rejected without persisting. -/
theorem c5_invalid_schedule_rejected_witness :
    schedule cronValidAll cronNextMinute 0 ⟨[], 0⟩ (FireSpec.delayed (-1)) "t" =
      (Except.error SchedError.invalidSchedule, ⟨[], 0⟩) :=
  (c5_invalid_schedule_rejected cronValidAll cronNextMinute 0 ⟨[], 0⟩
    (FireSpec.delayed (-1)) "t" (by decide)).1

/-- A tick never changes an entry's scheduleId. -/
theorem tickEntry_scheduleId (cronNext : String → Int → Int) (now : Int)
    (e : ScheduleEntry) :
    (tickEntry cronNext now e).scheduleId = e.scheduleId := by
  unfold tickEntry
  split
  · split <;> rfl
  · rfl

/-- A due non-recurring entry is inactive after a tick. -/
theorem tickEntry_nonrecurring_inactive (cronNext : String → Int → Int)
    (now : Int) (e : ScheduleEntry)
    (hc : e.spec.isCron = false) (hd : e.nextFireAt ≤ now) :
    (tickEntry cronNext now e).active = false := by
  unfold tickEntry
  cases ha : e.active
  · simp [ha]
  · simp [ha, hd, hc]

/-- After a tick, no active entry carries an id whose entries were all
non-recurring and due. -/
theorem any_active_after_tick_false (cronNext : String → Int → Int)
    (now : Int) (sid : String) (l : List ScheduleEntry)
    (h : ∀ e ∈ l, e.scheduleId = sid → e.spec.isCron = false ∧ e.nextFireAt ≤ now) :
    (l.map (tickEntry cronNext now)).any
      (fun e => decide (e.scheduleId = sid) && e.active) = false := by
  induction l with
  | nil => rfl
  | cons e l ih =>
      simp only [List.map_cons, List.any_cons, Bool.or_eq_false_iff]
      constructor
      · by_cases hid : e.scheduleId = sid
        · obtain ⟨hc, hd⟩ := h e (by simp) hid
          simp [tickEntry_nonrecurring_inactive cronNext now e hc hd]
        · simp [tickEntry_scheduleId, hid]
      · exact ih (fun e2 he2 => h e2 (by simp [he2]))

/-- C6: cancelling a scheduleId with no active entry — unknown, or already
inactive, in particular a non-recurring entry deactivated by the tick that
fired it — yields NotFoundError, is reported to the caller as an error message
rather than the success message, and changes no state. -/
theorem c6_cancel_unknown_not_found (st : SchedulerState) (sid : String)
    (h : st.entries.any (fun e => decide (e.scheduleId = sid) && e.active) = false) :
    cancel st sid = (Except.error SchedError.notFound, st) ∧
    cancelScheduledTaskExecute st sid =
      ("Error canceling task " ++ sid ++ ": " ++ SchedError.notFound.render, st) ∧
    (∀ (cronNext : String → Int → Int) (now : Int) (st2 : SchedulerState),
      (∀ e ∈ st2.entries, e.scheduleId = sid →
          e.spec.isCron = false ∧ e.nextFireAt ≤ now) →
      cancel (fireTick cronNext now st2) sid =
        (Except.error SchedError.notFound, fireTick cronNext now st2)) := by
  have hc : cancel st sid = (Except.error SchedError.notFound, st) := by
    simp [cancel, h]
  refine ⟨hc, ?_, ?_⟩
  · simp [cancelScheduledTaskExecute, hc]
  · intro cronNext now st2 h2
    simp [cancel, fireTick,
      any_active_after_tick_false cronNext now sid st2.entries h2]

/-- Witness for C6: a delayed entry fires at its due time, is deactivated, and
the subsequent cancel reports NotFoundError without state change. -/
theorem c6_cancel_unknown_not_found_witness :
    cancelScheduledTaskExecute ⟨[], 0⟩ "schedule_9" =
      ("Error canceling task " ++ "schedule_9" ++ ": " ++ SchedError.notFound.render,
       ⟨[], 0⟩) ∧
    cancel (fireTick cronNextMinute 10
        ⟨[⟨"schedule_0", FireSpec.delayed 5, "remind", 5, true⟩], 1⟩) "schedule_0" =
      (Except.error SchedError.notFound,
       fireTick cronNextMinute 10
        ⟨[⟨"schedule_0", FireSpec.delayed 5, "remind", 5, true⟩], 1⟩) :=
  ⟨(c6_cancel_unknown_not_found ⟨[], 0⟩ "schedule_9" (by decide)).2.1,
   (c6_cancel_unknown_not_found ⟨[], 0⟩ "schedule_0" (by decide)).2.2
     cronNextMinute 10
     ⟨[⟨"schedule_0", FireSpec.delayed 5, "remind", 5, true⟩], 1⟩ (by decide)⟩

/-- Conversation memory: a JS object mapping keys to string values, embedded
as an ordered key-value list (JS object property order). -/
abbrev Memory := List (String × String)

/-- Property lookup on the memory object. -/
def memLookup : Memory → String → Option String
  | [], _ => none
  | p :: m, k => if p.1 = k then some p.2 else memLookup m k

/-- Whether the memory object has a property named `k`. -/
def memHasKey : Memory → String → Bool
  | [], _ => false
  | p :: m, k => if p.1 = k then true else memHasKey m k

/-- The spread merge of `setMemory` in `tools.ts`
(`\x7b...currentMemory, [key]: value\x7d`): an existing key keeps its position
and gets the new value, a new key is appended. -/
def setMemoryOp (m : Memory) (k v : String) : Memory :=
  if memHasKey m k then m.map (fun p => if p.1 = k then (p.1, v) else p)
  else m ++ [(k, v)]

/-- The rest-destructuring of `forgetMemory` in `tools.ts`
(`const \x7b [key]: _, ...updatedMemory \x7d = currentMemory`): every property
except `key`, in order. -/
def forgetMemoryOp : Memory → String → Memory
  | [], _ => []
  | p :: m, k => if p.1 = k then forgetMemoryOp m k else p :: forgetMemoryOp m k

/-- A local invoice record as stored in the agent state by
`executions.createInvoice`. -/
structure Invoice where
  id : String
  name : String
  description : String
  price : Rat
  createdAt : String
deriving DecidableEq, Repr

/-- The conversation-scoped agent state visible. `tools.ts` reads
`state.memory || \x7b\x7d` and `state.invoices || []`; the model carries the
defaulted values.  Per the spec's shared-resource policy, each write replaces
one component's whole value. -/
structure AgentState where
  memory : Memory
  invoices : List Invoice
deriving DecidableEq, Repr

/-- The `execute` body of `setMemory` in `tools.ts`: merge the pair into the
current memory and write the new memory component back. -/
def setMemoryExecute (st : AgentState) (k v : String) : String × AgentState :=
  ("Memory \"" ++ k ++ "\" set to \"" ++ v ++ "\"",
   { st with memory := setMemoryOp st.memory k v })

/-- The `execute` body of `forgetMemory` in `tools.ts`: drop the key from the
current memory and write the new memory component back; the returned message
does not depend on whether the key was present. -/
def forgetMemoryExecute (st : AgentState) (k : String) : String × AgentState :=
  ("Memory entry \"" ++ k ++ "\" forgotten",
   { st with memory := forgetMemoryOp st.memory k })

/-- The bound execution function `executions.createInvoice` in `tools.ts`:
append a fresh invoice built from the arguments and the current clock, leaving
the memory component untouched. -/
def createInvoiceExecute (st : AgentState) (name description : String)
    (price : Rat) (nowMs : Nat) (nowIso : String) : String × AgentState :=
  let newInvoice : Invoice :=
    { id := "invoice_" ++ toString nowMs, name := name,
      description := description, price := price, createdAt := nowIso }
  ("Invoice created successfully! Name: " ++ name ++ " Description: " ++
     description ++ " ID: " ++ newInvoice.id,
   { st with invoices := st.invoices ++ [newInvoice] })

/-- The in-place value update of an existing key does not change other keys. -/
theorem memLookup_map_update_other (m : Memory) (k v k2 : String)
    (h : k2 ≠ k) :
    memLookup (m.map (fun p => if p.1 = k then (p.1, v) else p)) k2 =
      memLookup m k2 := by
  have hkk2 : ¬ k = k2 := fun hk => h hk.symm
  induction m with
  | nil => rfl
  | cons p m ih =>
      by_cases hp : p.1 = k
      · have hne : ¬ p.1 = k2 := by
          rw [hp]
          exact hkk2
        simp [memLookup, hp, hne, hkk2, ih]
      · by_cases hp2 : p.1 = k2 <;> simp [memLookup, hp, hp2, h, ih]

/-- Appending a fresh pair does not change other keys. -/
theorem memLookup_append_absent (m : Memory) (k v k2 : String)
    (h : k2 ≠ k) :
    memLookup (m ++ [(k, v)]) k2 = memLookup m k2 := by
  have hke : ¬ k = k2 := fun hk => h hk.symm
  induction m with
  | nil => simp [memLookup, hke]
  | cons p m ih =>
      by_cases hp : p.1 = k2 <;> simp [memLookup, hp, ih]

/-- The in-place value update of a present key yields the new value. -/
theorem memLookup_map_update_self (m : Memory) (k v : String)
    (hk : memHasKey m k = true) :
    memLookup (m.map (fun p => if p.1 = k then (p.1, v) else p)) k = some v := by
  induction m with
  | nil => simp [memHasKey] at hk
  | cons p m ih =>
      by_cases hp : p.1 = k
      · simp [memLookup, hp]
      · have hk2 : memHasKey m k = true := by
          simpa [memHasKey, hp] using hk
        simp [memLookup, hp, ih hk2]

/-- Appending a pair with an absent key makes it the key's value. -/
theorem memLookup_append_self (m : Memory) (k v : String)
    (hk : memHasKey m k = false) :
    memLookup (m ++ [(k, v)]) k = some v := by
  induction m with
  | nil => simp [memLookup]
  | cons p m ih =>
      have hp : ¬ p.1 = k := by
        intro hp
        simp [memHasKey, hp] at hk
      have hk2 : memHasKey m k = false := by
        simpa [memHasKey, hp] using hk
      simp [memLookup, hp, ih hk2]

/-- Setting key `k` leaves the value of every other key unchanged. -/
theorem memLookup_setMemoryOp_other (m : Memory) (k v k2 : String)
    (h : k2 ≠ k) : memLookup (setMemoryOp m k v) k2 = memLookup m k2 := by
  unfold setMemoryOp
  split
  · exact memLookup_map_update_other m k v k2 h
  · exact memLookup_append_absent m k v k2 h

/-- Setting key `k` makes its value `v`. -/
theorem memLookup_setMemoryOp_self (m : Memory) (k v : String) :
    memLookup (setMemoryOp m k v) k = some v := by
  unfold setMemoryOp
  split
  case isTrue hk => exact memLookup_map_update_self m k v hk
  case isFalse hk =>
    exact memLookup_append_self m k v (Bool.not_eq_true _ ▸ eq_false_of_ne_true hk)

/-- C7: setMemory(k, v) maps k to v, leaves every other memory key unchanged,
and leaves the invoices list untouched; symmetrically the createInvoice bound
execution function leaves the memory map unchanged. -/
theorem c7_memory_invoice_frame (st : AgentState) (k v k2 : String)
    (h : k2 ≠ k) :
    memLookup (setMemoryExecute st k v).2.memory k2 = memLookup st.memory k2 ∧
    memLookup (setMemoryExecute st k v).2.memory k = some v ∧
    (setMemoryExecute st k v).2.invoices = st.invoices ∧
    (∀ (name description : String) (price : Rat) (nowMs : Nat) (nowIso : String),
      (createInvoiceExecute st name description price nowMs nowIso).2.memory =
        st.memory) := by
  refine ⟨?_, ?_, rfl, ?_⟩
  · exact memLookup_setMemoryOp_other st.memory k v k2 h
  · exact memLookup_setMemoryOp_self st.memory k v
  · intro name description price nowMs nowIso
    rfl

/-- Witness for C7 on a concrete agent state. -/
theorem c7_memory_invoice_frame_witness :
    memLookup (setMemoryExecute
        ⟨[("city", "Paris")],
         [⟨"invoice_1", "Audit", "annual", 10, "2024-01-01"⟩]⟩ "lang" "fr").2.memory
        "city" =
      memLookup [("city", "Paris")] "city" ∧
    memLookup (setMemoryExecute
        ⟨[("city", "Paris")],
         [⟨"invoice_1", "Audit", "annual", 10, "2024-01-01"⟩]⟩ "lang" "fr").2.memory
        "lang" = some "fr" ∧
    (setMemoryExecute
        ⟨[("city", "Paris")],
         [⟨"invoice_1", "Audit", "annual", 10, "2024-01-01"⟩]⟩ "lang" "fr").2.invoices =
      [⟨"invoice_1", "Audit", "annual", 10, "2024-01-01"⟩] :=
  ⟨(c7_memory_invoice_frame _ "lang" "fr" "city" (by decide)).1,
   (c7_memory_invoice_frame
      ⟨[("city", "Paris")], [⟨"invoice_1", "Audit", "annual", 10, "2024-01-01"⟩]⟩
      "lang" "fr" "city" (by decide)).2.1,
   (c7_memory_invoice_frame
      ⟨[("city", "Paris")], [⟨"invoice_1", "Audit", "annual", 10, "2024-01-01"⟩]⟩
      "lang" "fr" "city" (by decide)).2.2.1⟩

/-- An absent key means no occurrence, so the key-presence test is false. -/
theorem memHasKey_eq_false_of_lookup_none (m : Memory) (k : String)
    (h : memLookup m k = none) : memHasKey m k = false := by
  induction m with
  | nil => rfl
  | cons p m ih =>
      by_cases hp : p.1 = k
      · simp [memLookup, hp] at h
      · have h2 : memLookup m k = none := by
          simpa [memLookup, hp] using h
        simp [memHasKey, hp, ih h2]

/-- Forgetting an absent key is the identity. -/
theorem forgetMemoryOp_absent (m : Memory) (k : String)
    (h : memLookup m k = none) : forgetMemoryOp m k = m := by
  induction m with
  | nil => rfl
  | cons p m ih =>
      by_cases hp : p.1 = k
      · simp [memLookup, hp] at h
      · have h2 : memLookup m k = none := by
          simpa [memLookup, hp] using h
        simp [forgetMemoryOp, hp, ih h2]

/-- After forgetting a key it is absent. -/
theorem memLookup_forgetMemoryOp_self (m : Memory) (k : String) :
    memLookup (forgetMemoryOp m k) k = none := by
  induction m with
  | nil => rfl
  | cons p m ih =>
      by_cases hp : p.1 = k
      · simp [forgetMemoryOp, hp, ih]
      · simp [forgetMemoryOp, memLookup, hp, ih]

/-- Forgetting distributes over append. -/
theorem forgetMemoryOp_append (m1 m2 : Memory) (k : String) :
    forgetMemoryOp (m1 ++ m2) k = forgetMemoryOp m1 k ++ forgetMemoryOp m2 k := by
  induction m1 with
  | nil => rfl
  | cons p m1 ih =>
      by_cases hp : p.1 = k <;> simp [forgetMemoryOp, hp, ih]

/-- C10: forgetting an absent key leaves memory exactly unchanged yet the
returned success message is the same as when the key was present (it does not
depend on the state at all); forgetMemory is idempotent; and setMemory
followed by forgetMemory on a previously absent key restores the original
memory. -/
theorem c10_forget_memory_algebra (m : Memory) (k v : String)
    (h : memLookup m k = none) :
    forgetMemoryOp m k = m ∧
    (∀ (st st2 : AgentState),
      (forgetMemoryExecute st k).1 = (forgetMemoryExecute st2 k).1) ∧
    (∀ (m2 : Memory),
      forgetMemoryOp (forgetMemoryOp m2 k) k = forgetMemoryOp m2 k) ∧
    forgetMemoryOp (setMemoryOp m k v) k = m := by
  have hk : memHasKey m k = false := memHasKey_eq_false_of_lookup_none m k h
  refine ⟨forgetMemoryOp_absent m k h, fun st st2 => rfl, ?_, ?_⟩
  · intro m2
    exact forgetMemoryOp_absent (forgetMemoryOp m2 k) k
      (memLookup_forgetMemoryOp_self m2 k)
  · simp [setMemoryOp, hk, forgetMemoryOp_append, forgetMemoryOp,
      forgetMemoryOp_absent m k h]

/-- Witness for C10 on a concrete memory without the key. -/
theorem c10_forget_memory_algebra_witness :
    forgetMemoryOp [("city", "Paris")] "lang" = [("city", "Paris")] ∧
    forgetMemoryOp (setMemoryOp [("city", "Paris")] "lang" "fr") "lang" =
      [("city", "Paris")] :=
  ⟨(c10_forget_memory_algebra [("city", "Paris")] "lang" "fr" (by decide)).1,
   (c10_forget_memory_algebra [("city", "Paris")] "lang" "fr" (by decide)).2.2.2⟩

/-- A JSON-ish argument value as received by a tool call. -/
inductive JsonVal
  | jnull
  | jbool (b : Bool)
  | jnum (n : Rat)
  | jstr (s : String)
  | jstrArr (xs : List String)
deriving DecidableEq, Repr

/-- Argument object of a tool call: field name to value. -/
abbrev ArgObj := List (String × JsonVal)

/-- Field access on an argument object. -/
def getField : ArgObj → String → Option JsonVal
  | [], _ => none
  | p :: args, k => if p.1 = k then some p.2 else getField args k

/-- `z.number().positive()`: required field, number, strictly positive. -/
def fieldPosNum : Option JsonVal → Bool
  | some (JsonVal.jnum n) => decide (0 < n)
  | _ => false

/-- `z.number()`: required field, any number. -/
def fieldNum : Option JsonVal → Bool
  | some (JsonVal.jnum _) => true
  | _ => false

/-- `z.string()`: required field, any string. -/
def fieldStr : Option JsonVal → Bool
  | some (JsonVal.jstr _) => true
  | _ => false

/-- `z.string().min(1)`: required field, non-empty string. -/
def fieldMin1Str : Option JsonVal → Bool
  | some (JsonVal.jstr s) => decide (1 ≤ s.length)
  | _ => false

/-- `z.string().optional()` (and `z.string().default(...)`, whose default fills
an absent field): absent, or a string. -/
def fieldOptStr : Option JsonVal → Bool
  | none => true
  | some (JsonVal.jstr _) => true
  | _ => false

/-- `z.array(z.string()).optional()`: absent, or an array of strings. -/
def fieldOptStrArr : Option JsonVal → Bool
  | none => true
  | some (JsonVal.jstrArr _) => true
  | _ => false

/-- The registered parameter schema of `addExpense` in `tools.ts`:
amount must be a positive number, description and category non-empty strings,
the rest optional strings / string array. -/
def validateAddExpenseArgs (args : ArgObj) : Bool :=
  fieldPosNum (getField args "amount") &&
  fieldMin1Str (getField args "description") &&
  fieldMin1Str (getField args "category") &&
  fieldOptStr (getField args "date") &&
  fieldOptStr (getField args "currency") &&
  fieldOptStrArr (getField args "tags") &&
  fieldOptStr (getField args "paymentMethod") &&
  fieldOptStr (getField args "receipt")

/-- The registered parameter schema of `createInvoice` in `tools.ts`:
name and description are strings and price is `z.number()` — the source
declares no positivity constraint on price. -/
def validateCreateInvoiceArgs (args : ArgObj) : Bool :=
  fieldStr (getField args "name") &&
  fieldStr (getField args "description") &&
  fieldNum (getField args "price")

/-- A batch member: one model-issued call to a schema-validated tool. -/
inductive BatchCall
  | addExpenseCall (args : ArgObj)
  | createInvoiceCall (args : ArgObj)
deriving DecidableEq, Repr

/-- Validation of one batch member against its registered schema. -/
def validateCall : BatchCall → Bool
  | BatchCall.addExpenseCall args => validateAddExpenseArgs args
  | BatchCall.createInvoiceCall args => validateCreateInvoiceArgs args

/-- Modelled from the spec: dispatch of a single call — a validation failure
short-circuits that call to FAILED before the execution function runs
(execution count 0); a valid call is executed. -/
def dispatchCall (exec : ExecResult) (call : BatchCall) : Status × Nat :=
  if validateCall call then
    let s := runExec exec { status := Status.APPROVED, result := none, execCount := 0 }
    (s.status, s.execCount)
  else (Status.FAILED, 0)

/-- Modelled from the spec: batch dispatch validates each call independently,
in order. -/
def dispatchBatch (exec : ExecResult) (calls : List BatchCall) :
    List (Status × Nat) :=
  calls.map (dispatchCall exec)

/-- The argument object refuting C8: a createInvoice call whose price is the
non-positive number -5 passes the registered parameter schema. -/
def c8BadInvoiceArgs : ArgObj :=
  [("name", JsonVal.jstr "Consulting"),
   ("description", JsonVal.jstr "Annual audit"),
   ("price", JsonVal.jnum (-5))]

/-- Counterexample to C8 as stated: the registered schema of createInvoice
accepts a strictly negative price — validation does not fail the call, and the
bound execution function runs — so the declared positivity constraint does not
apply to the price of createInvoice. -/
theorem c8_counterexample_negative_price_accepted :
    getField c8BadInvoiceArgs "price" = some (JsonVal.jnum (-5)) ∧
    ((-5 : Rat) < 0) ∧
    validateCreateInvoiceArgs c8BadInvoiceArgs = true ∧
    dispatchCall (Except.ok "done") (BatchCall.createInvoiceCall c8BadInvoiceArgs) =
      (Status.COMPLETED, 1) := by
  refine ⟨rfl, by norm_num, rfl, rfl⟩

/-- C8 (amended): schema validation rejects malformed input — missing required
fields, wrong primitive type, and non-positive values where positivity is
declared — failing only that single call before its execution function runs
and leaving siblings untouched; the positivity constraint applies to the
amount of addExpense, while the price of createInvoice is only required to be
a number. -/
theorem c8_amended_schema_validation :
    (∀ (args : ArgObj) (n : Rat), getField args "amount" = some (JsonVal.jnum n) →
        n ≤ 0 → validateAddExpenseArgs args = false) ∧
    (∀ (args : ArgObj), getField args "amount" = none →
        validateAddExpenseArgs args = false) ∧
    (∀ (args : ArgObj) (s : String),
        getField args "amount" = some (JsonVal.jstr s) →
        validateAddExpenseArgs args = false) ∧
    (∀ (args : ArgObj), getField args "name" = none →
        validateCreateInvoiceArgs args = false) ∧
    (∀ (name description : String) (p : Rat),
        validateCreateInvoiceArgs
          [("name", JsonVal.jstr name), ("description", JsonVal.jstr description),
           ("price", JsonVal.jnum p)] = true) ∧
    (∀ (exec : ExecResult) (call : BatchCall), validateCall call = false →
        dispatchCall exec call = (Status.FAILED, 0)) ∧
    (∀ (exec : ExecResult) (pre post : List BatchCall) (call : BatchCall),
        dispatchBatch exec (pre ++ call :: post) =
          dispatchBatch exec pre ++ dispatchCall exec call :: dispatchBatch exec post) := by
  refine ⟨?_, ?_, ?_, ?_, ?_, ?_, ?_⟩
  · intro args n hf hn
    have : fieldPosNum (getField args "amount") = false := by
      simp [hf, fieldPosNum, not_lt.mpr hn]
    simp [validateAddExpenseArgs, this]
  · intro args hf
    simp [validateAddExpenseArgs, hf, fieldPosNum]
  · intro args s hf
    simp [validateAddExpenseArgs, hf, fieldPosNum]
  · intro args hf
    simp [validateCreateInvoiceArgs, hf, fieldStr]
  · intro name description p
    rfl
  · intro exec call hv
    simp [dispatchCall, hv]
  · intro exec pre post call
    simp [dispatchBatch]

/-- Witness for C8 (amended) at concrete inputs. -/
theorem c8_amended_schema_validation_witness :
    validateAddExpenseArgs
      [("amount", JsonVal.jnum (-5)),
       ("description", JsonVal.jstr "Lunch"),
       ("category", JsonVal.jstr "Food")] = false ∧
    dispatchCall (Except.ok "done")
      (BatchCall.addExpenseCall [("description", JsonVal.jstr "Lunch")]) =
      (Status.FAILED, 0) :=
  ⟨c8_amended_schema_validation.1
     [("amount", JsonVal.jnum (-5)),
      ("description", JsonVal.jstr "Lunch"),
      ("category", JsonVal.jstr "Food")] (-5) rfl (by norm_num),
   c8_amended_schema_validation.2.2.2.2.2.1 (Except.ok "done")
     (BatchCall.addExpenseCall [("description", JsonVal.jstr "Lunch")]) rfl⟩

/-- A row of the `expenses` table (drizzle schema in the MCP worker). -/
structure Expense where
  id : Nat
  amount : Rat
  description : String
  category : String
  date : String
  currency : String
  tags : List String
  paymentMethod : Option String
  receipt : Option String
deriving DecidableEq, Repr

/-- The `updateData` object the MCP `updateExpense` tool builds: a field is
included exactly when the corresponding argument was provided. -/
structure ExpenseUpdate where
  amount : Option Rat
  description : Option String
  category : Option String
  date : Option String
  currency : Option String
  tags : Option (List String)
  paymentMethod : Option String
  receipt : Option String
deriving DecidableEq, Repr

/-- `Object.keys(updateData).length === 0`: no field was provided. -/
def hasNoFields (u : ExpenseUpdate) : Bool :=
  u.amount.isNone && u.description.isNone && u.category.isNone &&
  u.date.isNone && u.currency.isNone && u.tags.isNone &&
  u.paymentMethod.isNone && u.receipt.isNone

/-- `db.update(...).set(updateData)` applied to one row: provided columns are
overwritten, the rest keep their values. -/
def applyUpdate (u : ExpenseUpdate) (e : Expense) : Expense :=
  { e with
    amount := u.amount.getD e.amount
    description := u.description.getD e.description
    category := u.category.getD e.category
    date := u.date.getD e.date
    currency := u.currency.getD e.currency
    tags := u.tags.getD e.tags
    paymentMethod := match u.paymentMethod with
      | some v => some v
      | none => e.paymentMethod
    receipt := match u.receipt with
      | some v => some v
      | none => e.receipt }

/-- `db.update(expenses).set(updateData).where(eq(id)).returning()`: the new
table contents and the first updated row (the destructured `[updatedExpense]`),
`none` when no row matched. -/
def dbUpdate (db : List Expense) (idv : Nat) (u : ExpenseUpdate) :
    List Expense × Option Expense :=
  (db.map (fun e => if e.id = idv then applyUpdate u e else e),
   (db.find? (fun e => decide (e.id = idv))).map (applyUpdate u))

/-- `db.delete(expenses).where(eq(id)).returning()`: the remaining rows and
the first deleted row, `none` when no row matched. -/
def dbDelete (db : List Expense) (idv : Nat) :
    List Expense × Option Expense :=
  (db.filter (fun e => !decide (e.id = idv)),
   db.find? (fun e => decide (e.id = idv)))

/-- An MCP tool response: the text content and the isError flag. -/
structure McpResult where
  text : String
  isError : Bool
deriving DecidableEq, Repr

/-- Canonical rendering of a row in a response message (standing in for
`JSON.stringify`). -/
def renderExpense (e : Expense) : String :=
  "id: " ++ toString e.id ++ ", amount: " ++ toString e.amount ++
  ", description: " ++ e.description ++ ", category: " ++ e.category

/-- The MCP `updateExpense` tool: empty update objects are refused before any
database call; an id matching no row yields the not-found error; otherwise the
updated row is reported. -/
def updateExpenseTool (db : List Expense) (idv : Nat) (u : ExpenseUpdate) :
    McpResult × List Expense :=
  if hasNoFields u then
    ({ text := "No fields provided to update", isError := true }, db)
  else
    match dbUpdate db idv u with
    | (db2, none) =>
        ({ text := "Expense with ID " ++ toString idv ++ " not found",
           isError := true }, db2)
    | (db2, some e) =>
        ({ text := "Expense updated successfully: " ++ renderExpense e,
           isError := false }, db2)

/-- The MCP `deleteExpense` tool: an id matching no row yields the not-found
error; otherwise the deleted row is reported. -/
def deleteExpenseTool (db : List Expense) (idv : Nat) :
    McpResult × List Expense :=
  match dbDelete db idv with
  | (db2, none) =>
      ({ text := "Expense with ID " ++ toString idv ++ " not found",
         isError := true }, db2)
  | (db2, some e) =>
      ({ text := "Expense deleted successfully: " ++ renderExpense e,
         isError := false }, db2)

/-- A where-clause matching no row leaves an update untouched row-wise. -/
theorem map_update_id_of_absent (db : List Expense) (idv : Nat)
    (u : ExpenseUpdate) (h : ∀ e ∈ db, e.id ≠ idv) :
    db.map (fun e => if e.id = idv then applyUpdate u e else e) = db := by
  induction db with
  | nil => rfl
  | cons e db ih =>
      have he : ¬ e.id = idv := h e (by simp)
      simp [he, ih (fun e2 he2 => h e2 (by simp [he2]))]

/-- A where-clause matching no row finds nothing. -/
theorem find_id_of_absent (db : List Expense) (idv : Nat)
    (h : ∀ e ∈ db, e.id ≠ idv) :
    db.find? (fun e => decide (e.id = idv)) = none := by
  induction db with
  | nil => rfl
  | cons e db ih =>
      have he : ¬ e.id = idv := h e (by simp)
      simp [List.find?, he, ih (fun e2 he2 => h e2 (by simp [he2]))]

/-- A where-clause matching no row deletes nothing. -/
theorem filter_id_of_absent (db : List Expense) (idv : Nat)
    (h : ∀ e ∈ db, e.id ≠ idv) :
    db.filter (fun e => !decide (e.id = idv)) = db := by
  induction db with
  | nil => rfl
  | cons e db ih =>
      have he : ¬ e.id = idv := h e (by simp)
      simp [List.filter, he, ih (fun e2 he2 => h e2 (by simp [he2]))]

/-- C9: for an id present in no row, updateExpense and deleteExpense each
report a not-found error outcome and leave the record set exactly as it was;
an update with an empty field set performs no write and reports that no fields
were provided. -/
theorem c9_update_delete_not_found (db : List Expense) (idv : Nat)
    (u : ExpenseUpdate) (h : ∀ e ∈ db, e.id ≠ idv) :
    (hasNoFields u = false →
      updateExpenseTool db idv u =
        ({ text := "Expense with ID " ++ toString idv ++ " not found",
           isError := true }, db)) ∧
    deleteExpenseTool db idv =
      ({ text := "Expense with ID " ++ toString idv ++ " not found",
         isError := true }, db) ∧
    (hasNoFields u = true →
      updateExpenseTool db idv u =
        ({ text := "No fields provided to update", isError := true }, db)) := by
  refine ⟨?_, ?_, ?_⟩
  · intro hu
    simp [updateExpenseTool, hu, dbUpdate, find_id_of_absent db idv h,
      map_update_id_of_absent db idv u h]
  · simp [deleteExpenseTool, dbDelete, find_id_of_absent db idv h,
      filter_id_of_absent db idv h]
  · intro hu
    simp [updateExpenseTool, hu]

/-- Witness for C9 on a one-row table and an unknown id. -/
theorem c9_update_delete_not_found_witness :
    updateExpenseTool
        [⟨1, 20, "Lunch", "Food", "2024-01-01", "USD", [], none, none⟩] 2
        ⟨some 30, none, none, none, none, none, none, none⟩ =
      ({ text := "Expense with ID " ++ toString 2 ++ " not found",
         isError := true },
       [⟨1, 20, "Lunch", "Food", "2024-01-01", "USD", [], none, none⟩]) ∧
    deleteExpenseTool
        [⟨1, 20, "Lunch", "Food", "2024-01-01", "USD", [], none, none⟩] 2 =
      ({ text := "Expense with ID " ++ toString 2 ++ " not found",
         isError := true },
       [⟨1, 20, "Lunch", "Food", "2024-01-01", "USD", [], none, none⟩]) :=
  ⟨(c9_update_delete_not_found
      [⟨1, 20, "Lunch", "Food", "2024-01-01", "USD", [], none, none⟩] 2
      ⟨some 30, none, none, none, none, none, none, none⟩ (by decide)).1 rfl,
   (c9_update_delete_not_found
      [⟨1, 20, "Lunch", "Food", "2024-01-01", "USD", [], none, none⟩] 2
      ⟨some 30, none, none, none, none, none, none, none⟩ (by decide)).2.1⟩
